import Mathlib

/-!
Shallow embedding of `src/vox/recorder.py` (the streaming audio capture and
endpoint-detection engine) and proofs about it.

Modelling conventions:
* audio samples are exact rationals (`ℚ`), embedding the float32 sample values;
* the level meter (`np.sqrt`, `np.log10`) is embedded over the reals;
* the `while True` consumer loop of `record_until_silence` is embedded as a
  recursion over the finite list of blocks delivered by the driver, in arrival
  order; running out of delivered blocks without a break means the loop is
  still blocked waiting on the queue (`Option` result `none`);
* Python exceptions are embedded as an explicit error type (`PyError`) and
  `Except` results.
-/

namespace Vox

/-- One audio block: the samples of one `indata` callback delivery. -/
abbrev Chunk := List ℚ

/-- `rms = float(np.sqrt(np.mean(chunk ** 2)))` (recorder.py line 89).
`np.mean` divides by the length; in Lean division by zero yields 0, which only
matters for the empty chunk (never delivered by the driver). -/
noncomputable def rms (chunk : Chunk) : ℝ :=
  Real.sqrt ((chunk.map fun q => (Rat.cast q : ℝ) ^ 2).sum / chunk.length)

/-- `_rms_to_db` (recorder.py lines 33-36). -/
noncomputable def _rms_to_db (r : ℝ) : ℝ :=
  if r ≤ 0 then -120 else 20 * Real.logb 10 r

/-- `peak = float(np.max(np.abs(audio)))` (recorder.py line 138); the fold
starts at 0, which agrees with `np.max` on every nonempty buffer since all
`|a|` are nonnegative. -/
def peak (audio : List ℚ) : ℚ :=
  audio.foldr (fun a m => max |a| m) 0

/-- `_normalize` (recorder.py lines 137-141).  `astype(np.float32)` is the
identity on the modelled sample values (the input is already float32). -/
def _normalize (audio : List ℚ) : List ℚ :=
  if 0 < peak audio then audio.map (fun a => a / peak audio) else audio

/-- The mutable loop state of `record_until_silence` (lines 65-69):
accumulated chunks and the two sample counters. -/
structure EngState where
  chunks : List Chunk
  silent_samples : ℕ
  total_samples : ℕ
  deriving Repr, DecidableEq

/-- The state at session start (lines 65-69). -/
def initState : EngState := ⟨[], 0, 0⟩

/-- Lines 86-95 of one loop iteration: append the chunk, add its length to
`total_samples`, and either grow `silent_samples` by the chunk length (block
level below threshold) or reset it to 0 (at or above threshold). -/
noncomputable def step (threshold_db : ℝ) (s : EngState) (chunk : Chunk) : EngState :=
  if _rms_to_db (rms chunk) < threshold_db then
    ⟨s.chunks ++ [chunk], s.silent_samples + chunk.length, s.total_samples + chunk.length⟩
  else
    ⟨s.chunks ++ [chunk], 0, s.total_samples + chunk.length⟩

/-- Which of the two `break` statements fired. -/
inductive StopReason
  | silence
  | maxDur
  deriving Repr, DecidableEq

/-- Lines 97-101: the two break conditions, the silence one checked first.
`needed = int(silence_duration * SAMPLE_RATE)`, `maxS = int(max_duration *
SAMPLE_RATE)`. -/
def stopReason (needed maxS : ℕ) (s : EngState) : Option StopReason :=
  if needed ≤ s.silent_samples ∧ needed < s.total_samples then some .silence
  else if maxS ≤ s.total_samples then some .maxDur
  else none

/-- One full loop iteration on a dequeued chunk: state update then the break
decision. -/
noncomputable def processBlock (t : ℝ) (needed maxS : ℕ) (s : EngState) (c : Chunk) :
    EngState × Option StopReason :=
  (step t s c, stopReason needed maxS (step t s c))

/-- The `while True` loop (lines 80-101), consuming the delivered blocks in
arrival order.  Result `(s, some r)` means the loop broke in state `s` for
reason `r`; `(s, none)` means the delivered blocks ran out with no break (the
real loop would keep blocking on `queue.get`). -/
noncomputable def runLoop (t : ℝ) (needed maxS : ℕ) :
    EngState → List Chunk → EngState × Option StopReason
  | s, [] => (s, none)
  | s, c :: cs =>
    match processBlock t needed maxS s c with
    | (s2, some r) => (s2, some r)
    | (s2, none) => runLoop t needed maxS s2 cs

/-- `audio_queue.put(indata.copy())` in the device callback (recorder.py
lines 60-63): `queue.Queue()` with no `maxsize` is an unbounded FIFO, `put`
appends at the tail. -/
def enqueue (q : List Chunk) (c : Chunk) : List Chunk := q ++ [c]

/-- The Python exceptions relevant to the recorder module. -/
inductive PyError
  | portAudio (msg : String)
  | recorder (msg : String)
  | generic (msg : String)
  deriving Repr, DecidableEq

/-- The fields of `sd.query_devices(device, kind="input")` that
`_ensure_mic_available` reads. -/
structure DeviceInfo where
  name : String
  max_input_channels : ℤ
  deriving Repr, DecidableEq

/-- `_ensure_mic_available` (recorder.py lines 39-49), as a function of the
outcome of the `sd.query_devices` call: zero-channel device raises
`RecorderError`; `PortAudioError` is re-raised as `RecorderError`; any other
exception is re-raised as `RecorderError` (a `RecorderError` escaping the
`try` is re-raised unchanged by the `isinstance` check). -/
def _ensure_mic_available (query : Except PyError DeviceInfo) : Except PyError Unit :=
  match query with
  | .ok info =>
    if info.max_input_channels < 1 then
      .error (.recorder ("Device " ++ info.name ++ " has no input channels"))
    else .ok ()
  | .error (.portAudio m) => .error (.recorder ("Cannot access audio device: " ++ m))
  | .error (.recorder m) => .error (.recorder m)
  | .error (.generic m) => .error (.recorder ("No suitable input device found: " ++ m))

/-- `record_until_silence` (recorder.py lines 52-110).  `cs` is the list of
blocks the loop dequeues, in arrival order; `streamErr = some m` models a
`sd.PortAudioError m` surfacing out of the `with` block after those blocks
(device failure mid-stream), caught at line 103 and re-raised as
`RecorderError`; overall result `none` models a call that has not returned
(the loop still blocked on the queue). -/
noncomputable def record_until_silence (query : Except PyError DeviceInfo)
    (t : ℝ) (needed maxS : ℕ) (cs : List Chunk) (streamErr : Option String) :
    Option (Except PyError (List ℚ)) :=
  match _ensure_mic_available query with
  | .error e => some (.error e)
  | .ok _ =>
    match runLoop t needed maxS initState cs with
    | (s, some _) =>
      some (.ok (if s.chunks = [] then [] else _normalize s.chunks.flatten))
    | (_, none) =>
      match streamErr with
      | some m => some (.error (.recorder ("Audio recording failed: " ++ m)))
      | none => none

/-- `record_for_duration` (recorder.py lines 113-134).  `recording` is the
buffer `sd.rec` fills; `recErr = some m` models a `sd.PortAudioError m` from
`sd.rec`/`sd.wait`, caught at line 130 and re-raised as `RecorderError`. -/
def record_for_duration (query : Except PyError DeviceInfo)
    (recording : List ℚ) (recErr : Option String) : Except PyError (List ℚ) :=
  match _ensure_mic_available query with
  | .error e => .error e
  | .ok _ =>
    match recErr with
    | some m => .error (.recorder ("Audio recording failed: " ++ m))
    | none => .ok (_normalize recording)

/-- The termination disjunction of the amended session-stop claim, with the
strict `total > needed` of line 97. -/
def stopCond (needed maxS : ℕ) (s : EngState) : Prop :=
  (needed ≤ s.silent_samples ∧ needed < s.total_samples) ∨ maxS ≤ s.total_samples

/-- The per-block trace of loop states: the state after each processed block. -/
noncomputable def statesAfter (t : ℝ) (s : EngState) : List Chunk → List EngState
  | [] => []
  | c :: cs => step t s c :: statesAfter t (step t s c) cs

/-- The maximal trailing run of below-threshold blocks of a block sequence. -/
noncomputable def trailingSilent (t : ℝ) (cs : List Chunk) : List Chunk :=
  (cs.reverse.takeWhile (fun c => decide (_rms_to_db (rms c) < t))).reverse

/-! Basic evaluation lemmas for the level meter. -/

lemma rms_to_db_nonpos {r : ℝ} (h : r ≤ 0) : _rms_to_db r = -120 := if_pos h

lemma rms_to_db_pos {r : ℝ} (h : 0 < r) : _rms_to_db r = 20 * Real.logb 10 r :=
  if_neg (not_le.mpr h)

lemma rms_replicate_zero (n : ℕ) : rms (List.replicate n (0 : ℚ)) = 0 := by
  simp [rms]

lemma rms_replicate_one {n : ℕ} (hn : n ≠ 0) : rms (List.replicate n (1 : ℚ)) = 1 := by
  have h1 : ((List.replicate n (1 : ℚ)).map fun q => (Rat.cast q : ℝ) ^ 2) =
      List.replicate n (1 : ℝ) := by
    simp [List.map_replicate]
  rw [rms, h1]
  simp only [List.sum_replicate, List.length_replicate, nsmul_eq_mul, mul_one]
  rw [div_self (by exact_mod_cast hn), Real.sqrt_one]

lemma rms_to_db_one : _rms_to_db 1 = 0 := by
  rw [rms_to_db_pos one_pos, Real.logb_one, mul_zero]

lemma zero_block_silent {t : ℝ} (ht : -120 < t) (n : ℕ) :
    _rms_to_db (rms (List.replicate n (0 : ℚ))) < t := by
  rw [rms_replicate_zero, rms_to_db_nonpos le_rfl]
  exact ht

lemma one_block_loud {t : ℝ} (ht : t ≤ 0) {n : ℕ} (hn : n ≠ 0) :
    ¬ _rms_to_db (rms (List.replicate n (1 : ℚ))) < t := by
  rw [rms_replicate_one hn, rms_to_db_one]
  exact not_lt.mpr ht

/-- Bounds used for log₁₀ 2: from 10^5 < 2^20 < 10^7. -/
lemma log_two_bounds :
    5 * Real.log 10 < 20 * Real.log 2 ∧ 20 * Real.log 2 < 7 * Real.log 10 := by
  constructor
  · have h : Real.log ((10 : ℝ) ^ (5 : ℕ)) < Real.log ((2 : ℝ) ^ (20 : ℕ)) :=
      Real.log_lt_log (by norm_num) (by norm_num)
    rw [Real.log_pow, Real.log_pow] at h
    push_cast at h
    linarith
  · have h : Real.log ((2 : ℝ) ^ (20 : ℕ)) < Real.log ((10 : ℝ) ^ (7 : ℕ)) :=
      Real.log_lt_log (by norm_num) (by norm_num)
    rw [Real.log_pow, Real.log_pow] at h
    push_cast at h
    linarith

/-- C5: for every non-positive RMS input, `_rms_to_db` returns exactly −120.0;
at RMS = 1.0 the result is within 0.01 of 0.0; at RMS = 0.5 the result lies
strictly between −7 and −5. -/
theorem C5_level_meter :
    (∀ r : ℝ, r ≤ 0 → _rms_to_db r = -120) ∧
    |_rms_to_db 1 - 0| ≤ 0.01 ∧
    (-7 < _rms_to_db (1 / 2) ∧ _rms_to_db (1 / 2) < -5) := by
  refine ⟨fun r hr => rms_to_db_nonpos hr, ?_, ?_⟩
  · rw [rms_to_db_one]
    norm_num
  · have hpos : (0 : ℝ) < 1 / 2 := by norm_num
    have hlog10 : 0 < Real.log 10 := Real.log_pos (by norm_num)
    have hb : Real.logb 10 (1 / 2) = -(Real.log 2 / Real.log 10) := by
      rw [one_div, Real.logb_inv, Real.log_div_log]
    have h2 := log_two_bounds
    have hd1 : 5 < 20 * Real.log 2 / Real.log 10 :=
      (lt_div_iff₀ hlog10).mpr (by linarith [h2.1])
    have hd2 : 20 * Real.log 2 / Real.log 10 < 7 :=
      (div_lt_iff₀ hlog10).mpr (by linarith [h2.2])
    rw [rms_to_db_pos hpos, hb, mul_neg, ← mul_div_assoc]
    constructor <;> linarith

/-- C5 witness: the non-positive branch applied at RMS = −1. -/
theorem C5_level_meter_witness : _rms_to_db (-1) = -120 :=
  C5_level_meter.1 (-1) (neg_nonpos.mpr zero_le_one)

/-- Helper for C9: the value of `_rms_to_db` at RMS = 10⁻⁶ is exactly −120. -/
lemma rms_to_db_at_micro : _rms_to_db (1 / 1000000) = -120 := by
  have hpos : (0 : ℝ) < 1 / 1000000 := by norm_num
  have hr : (1 / 1000000 : ℝ) = (10 : ℝ) ^ ((-6 : ℤ) : ℝ) := by
    rw [Real.rpow_intCast]
    norm_num
  rw [rms_to_db_pos hpos, hr, Real.logb_rpow (by norm_num) (by norm_num)]
  norm_num

/-- C9 counterexample: −120.0 is also produced at the strictly positive RMS
input 10⁻⁶, so it is not produced only for non-positive RMS. -/
theorem C9_counterexample :
    (0 : ℝ) < 1 / 1000000 ∧ _rms_to_db (1 / 1000000) = -120 :=
  ⟨by norm_num, rms_to_db_at_micro⟩

/-- C9 amended: `_rms_to_db` returns −120.0 exactly for the non-positive RMS
inputs together with the single positive input 10⁻⁶; at the strictly positive
input 10⁻¹⁰ it returns −200, strictly below −120, so −120 is not a lower
bound. -/
theorem C9_amended :
    (∀ r : ℝ, _rms_to_db r = -120 ↔ (r ≤ 0 ∨ r = 1 / 1000000)) ∧
    ((0 : ℝ) < 1 / 10000000000 ∧ _rms_to_db (1 / 10000000000) = -200 ∧
      _rms_to_db (1 / 10000000000) < -120) := by
  constructor
  · intro r
    constructor
    · intro h
      by_cases hr : r ≤ 0
      · exact Or.inl hr
      · right
        have hrpos : 0 < r := not_le.mp hr
        rw [rms_to_db_pos hrpos] at h
        have hlogb : Real.logb 10 r = -6 := by linarith
        have : (10 : ℝ) ^ Real.logb 10 r = r :=
          Real.rpow_logb (show (0 : ℝ) < 10 by norm_num)
            (show (10 : ℝ) ≠ 1 by norm_num) hrpos
        rw [hlogb] at this
        rw [← this]
        have : ((-6 : ℝ)) = ((-6 : ℤ) : ℝ) := by norm_num
        rw [this, Real.rpow_intCast]
        norm_num
    · rintro (h | h)
      · exact rms_to_db_nonpos h
      · rw [h]; exact rms_to_db_at_micro
  · refine ⟨by norm_num, ?_, ?_⟩
    · have hpos : (0 : ℝ) < 1 / 10000000000 := by norm_num
      have hr : (1 / 10000000000 : ℝ) = (10 : ℝ) ^ ((-10 : ℤ) : ℝ) := by
        rw [Real.rpow_intCast]
        norm_num
      rw [rms_to_db_pos hpos, hr, Real.logb_rpow (by norm_num) (by norm_num)]
      norm_num
    · have hpos : (0 : ℝ) < 1 / 10000000000 := by norm_num
      have hr : (1 / 10000000000 : ℝ) = (10 : ℝ) ^ ((-10 : ℤ) : ℝ) := by
        rw [Real.rpow_intCast]
        norm_num
      rw [rms_to_db_pos hpos, hr, Real.logb_rpow (by norm_num) (by norm_num)]
      norm_num

/-! Lemmas about `peak` and `_normalize`. -/

@[simp] lemma peak_nil : peak [] = 0 := rfl

@[simp] lemma peak_cons (a : ℚ) (l : List ℚ) : peak (a :: l) = max |a| (peak l) := rfl

lemma peak_nonneg (l : List ℚ) : 0 ≤ peak l := by
  induction l with
  | nil => simp
  | cons a l ih => exact le_max_of_le_right ih

lemma abs_le_peak {a : ℚ} {l : List ℚ} (h : a ∈ l) : |a| ≤ peak l := by
  induction l with
  | nil => cases h
  | cons b l ih =>
    rcases List.mem_cons.mp h with rfl | hmem
    · simp
    · exact le_trans (ih hmem) (by simp)

lemma peak_pos_of_ne_zero {a : ℚ} {l : List ℚ} (ha : a ∈ l) (h : a ≠ 0) :
    0 < peak l :=
  lt_of_lt_of_le (abs_pos.mpr h) (abs_le_peak ha)

lemma peak_eq_zero_of_all_zero {l : List ℚ} (h : ∀ a ∈ l, a = 0) : peak l = 0 := by
  induction l with
  | nil => rfl
  | cons a l ih =>
    rw [peak_cons, h a (List.mem_cons_self a l), ih fun b hb => h b (List.mem_cons_of_mem a hb)]
    simp

lemma peak_map_div {p : ℚ} (hp : 0 < p) (l : List ℚ) :
    peak (l.map fun a => a / p) = peak l / p := by
  induction l with
  | nil => simp
  | cons a l ih =>
    have hmono : Monotone fun x : ℚ => x / p := fun x y hxy => by
      exact div_le_div_of_nonneg_right hxy hp.le
    rw [List.map_cons, peak_cons, peak_cons, ih, abs_div, abs_of_pos hp,
      ← Monotone.map_max hmono]

lemma peak_normalize {l : List ℚ} (h : 0 < peak l) : peak (_normalize l) = 1 := by
  rw [_normalize, if_pos h, peak_map_div h, div_self (ne_of_gt h)]

/-- C3: `_normalize` is idempotent; an already unit-peak buffer is returned
unchanged; an all-zero buffer is returned unchanged (the `peak > 0` guard
skips the division, so no division by zero occurs). -/
theorem C3_normalize_idempotent :
    (∀ x : List ℚ, _normalize (_normalize x) = _normalize x) ∧
    (∀ x : List ℚ, peak x = 1 → _normalize x = x) ∧
    (∀ x : List ℚ, (∀ a ∈ x, a = 0) → _normalize x = x) := by
  have hunit : ∀ x : List ℚ, peak x = 1 → _normalize x = x := by
    intro x hx
    rw [_normalize, if_pos (hx ▸ one_pos), hx]
    simp
  refine ⟨fun x => ?_, hunit, fun x hx => ?_⟩
  · by_cases h : 0 < peak x
    · exact hunit _ (peak_normalize h)
    · have hx : _normalize x = x := by rw [_normalize, if_neg h]
      rw [hx]
      exact hx
  · rw [_normalize, if_neg (by rw [peak_eq_zero_of_all_zero hx]; exact lt_irrefl 0)]

/-- C3 witness: the unit-peak and all-zero branches at concrete buffers. -/
theorem C3_normalize_idempotent_witness :
    peak [(1 : ℚ)] = 1 ∧ _normalize [(1 : ℚ)] = [(1 : ℚ)] ∧
    (∀ a ∈ [(0 : ℚ), 0, 0], a = 0) ∧ _normalize [(0 : ℚ), 0, 0] = [(0 : ℚ), 0, 0] :=
  ⟨by decide, C3_normalize_idempotent.2.1 [(1 : ℚ)] (by decide), by decide,
    C3_normalize_idempotent.2.2 [(0 : ℚ), 0, 0] (by decide)⟩

/-- C4: for every buffer with at least one non-zero sample, the peak absolute
value of `_normalize` of the buffer is exactly 1 (the `astype(np.float32)`
of the source is the identity on the modelled float32 sample values, so the
output representation matches the input). -/
theorem C4_normalize_unit_peak :
    ∀ x : List ℚ, (∃ a ∈ x, a ≠ 0) → peak (_normalize x) = 1 := by
  rintro x ⟨a, ha, hne⟩
  exact peak_normalize (peak_pos_of_ne_zero ha hne)

/-- C4 witness: a concrete buffer with a non-zero sample normalizes to unit
peak. -/
theorem C4_normalize_unit_peak_witness :
    (∃ a ∈ [(1 : ℚ), -2], a ≠ 0) ∧ peak (_normalize [(1 : ℚ), -2]) = 1 :=
  ⟨by decide, C4_normalize_unit_peak [(1 : ℚ), -2] (by decide)⟩

/-! The producer-side queue (claim C2). -/

lemma foldl_enqueue (q : List Chunk) (cs : List Chunk) :
    List.foldl enqueue q cs = q ++ cs := by
  induction cs generalizing q with
  | nil => simp
  | cons c cs ih => rw [List.foldl_cons, enqueue, ih, List.append_assoc]; rfl

/-- C2 counterexample: the queue is `queue.Queue()` with no `maxsize`; for
every candidate capacity `C`, enqueueing `C + 1` blocks leaves all of them in
the queue, so no fixed capacity bounds its length and nothing is ever
dropped. -/
theorem C2_counterexample :
    ¬ ∃ C : ℕ, ∀ cs : List Chunk, (List.foldl enqueue [] cs).length ≤ C := by
  rintro ⟨C, hC⟩
  have h := hC (List.replicate (C + 1) [])
  rw [foldl_enqueue, List.nil_append, List.length_replicate] at h
  omega

/-- C2 amended: the channel is an unbounded FIFO queue; the block handler's
enqueue appends at the tail and never blocks the producer, and no block is
ever dropped — after the producer enqueues a block sequence the queue holds
exactly that sequence in arrival order. -/
theorem C2_amended :
    (∀ (q : List Chunk) (c : Chunk), enqueue q c = q ++ [c]) ∧
    (∀ cs : List Chunk, List.foldl enqueue [] cs = cs) ∧
    (∀ cs : List Chunk, (List.foldl enqueue [] cs).length = cs.length) :=
  ⟨fun _ _ => rfl, fun cs => by rw [foldl_enqueue, List.nil_append],
    fun cs => by rw [foldl_enqueue, List.nil_append]⟩

/-! Lemmas about the endpointing loop. -/

lemma step_silent {t : ℝ} {c : Chunk} (h : _rms_to_db (rms c) < t) (s : EngState) :
    step t s c =
      ⟨s.chunks ++ [c], s.silent_samples + c.length, s.total_samples + c.length⟩ := by
  rw [step, if_pos h]

lemma step_loud {t : ℝ} {c : Chunk} (h : ¬ _rms_to_db (rms c) < t) (s : EngState) :
    step t s c = ⟨s.chunks ++ [c], 0, s.total_samples + c.length⟩ := by
  rw [step, if_neg h]

lemma step_chunks (t : ℝ) (s : EngState) (c : Chunk) :
    (step t s c).chunks = s.chunks ++ [c] := by
  rw [step]
  split_ifs <;> rfl

lemma stopReason_ne_none_iff {needed maxS : ℕ} {s : EngState} :
    stopReason needed maxS s ≠ none ↔ stopCond needed maxS s := by
  rw [stopReason, stopCond]
  split_ifs with h1 h2
  · simp [h1]
  · simp [h1, h2]
  · simp [h1, h2]

lemma stopReason_eq_silence_iff {needed maxS : ℕ} {s : EngState} :
    stopReason needed maxS s = some .silence ↔
      (needed ≤ s.silent_samples ∧ needed < s.total_samples) := by
  rw [stopReason]
  split_ifs with h1 h2
  · simp [h1]
  · simp [h1]
  · simp [h1]

lemma stopReason_eq_maxDur_iff {needed maxS : ℕ} {s : EngState} :
    stopReason needed maxS s = some .maxDur ↔
      (¬ (needed ≤ s.silent_samples ∧ needed < s.total_samples) ∧
        maxS ≤ s.total_samples) := by
  rw [stopReason]
  split_ifs with h1 h2
  · simp [h1]
  · simp [h1, h2]
  · simp [h1, h2]

lemma runLoop_nil (t : ℝ) (needed maxS : ℕ) (s : EngState) :
    runLoop t needed maxS s [] = (s, none) := rfl

lemma runLoop_cons_stop {t : ℝ} {needed maxS : ℕ} {s : EngState} {c : Chunk}
    {r : StopReason} (h : stopReason needed maxS (step t s c) = some r)
    (cs : List Chunk) :
    runLoop t needed maxS s (c :: cs) = (step t s c, some r) := by
  simp only [runLoop, processBlock, h]

lemma runLoop_cons_go {t : ℝ} {needed maxS : ℕ} {s : EngState} {c : Chunk}
    (h : stopReason needed maxS (step t s c) = none) (cs : List Chunk) :
    runLoop t needed maxS s (c :: cs) = runLoop t needed maxS (step t s c) cs := by
  simp only [runLoop, processBlock, h]

@[simp] lemma statesAfter_nil (t : ℝ) (s : EngState) : statesAfter t s [] = [] := rfl

@[simp] lemma statesAfter_cons (t : ℝ) (s : EngState) (c : Chunk) (cs : List Chunk) :
    statesAfter t s (c :: cs) = step t s c :: statesAfter t (step t s c) cs := rfl

/-- A zero block used by the concrete witnesses: 4 samples of silence. -/
def zeroBlock4 : Chunk := List.replicate 4 (0 : ℚ)

lemma zeroBlock4_silent : _rms_to_db (rms zeroBlock4) < -40 :=
  zero_block_silent (by norm_num) 4

lemma step_zeroBlock4 (s : EngState) :
    step (-40) s zeroBlock4 =
      ⟨s.chunks ++ [zeroBlock4], s.silent_samples + 4, s.total_samples + 4⟩ := by
  rw [step_silent zeroBlock4_silent]
  rfl

/-- C1 counterexample: with `needed = 4`, `maxS = 10` and one all-silent block
of 4 samples, the claim's condition (silent ≥ needed AND total ≥ needed) holds
after the block, yet the loop does not break — the code requires the strict
`total_samples > silent_samples_needed` of recorder.py line 97. -/
theorem C1_counterexample :
    4 ≤ (step (-40) initState zeroBlock4).silent_samples ∧
    4 ≤ (step (-40) initState zeroBlock4).total_samples ∧
    ¬ 10 ≤ (step (-40) initState zeroBlock4).total_samples ∧
    (processBlock (-40) 4 10 initState zeroBlock4).2 = none := by
  have hs : step (-40) initState zeroBlock4 = ⟨[zeroBlock4], 4, 4⟩ := by
    rw [step_zeroBlock4]
    rfl
  have hp : (processBlock (-40) 4 10 initState zeroBlock4).2 =
      stopReason 4 10 (step (-40) initState zeroBlock4) := rfl
  refine ⟨by rw [hs], by rw [hs], by rw [hs]; norm_num, ?_⟩
  rw [hp, hs]
  rfl

/-- C1 amended: processing one block ends the session exactly when
(silent ≥ needed AND total > needed, strictly) OR total ≥ maxS; the silence
condition is evaluated first (the reason is `silence` whenever it holds, and
`maxDur` exactly when it fails and the max condition holds, so every break
has exactly one reason); over a whole delivered-block sequence the loop
breaks iff some per-block state satisfies the disjunction, and at a break
the final state satisfies it. -/
theorem C1_amended :
    ∀ (t : ℝ) (needed maxS : ℕ),
      (∀ (s : EngState) (c : Chunk),
        ((processBlock t needed maxS s c).2 ≠ none ↔
          stopCond needed maxS (step t s c)) ∧
        ((processBlock t needed maxS s c).2 = some .silence ↔
          (needed ≤ (step t s c).silent_samples ∧
            needed < (step t s c).total_samples)) ∧
        ((processBlock t needed maxS s c).2 = some .maxDur ↔
          (¬ (needed ≤ (step t s c).silent_samples ∧
              needed < (step t s c).total_samples) ∧
            maxS ≤ (step t s c).total_samples))) ∧
      (∀ (cs : List Chunk) (s : EngState),
        ((runLoop t needed maxS s cs).2 ≠ none ↔
          ∃ x ∈ statesAfter t s cs, stopCond needed maxS x)) ∧
      (∀ (cs : List Chunk) (s s2 : EngState) (r : StopReason),
        runLoop t needed maxS s cs = (s2, some r) →
          stopCond needed maxS s2 ∧
          (r = .silence ↔
            (needed ≤ s2.silent_samples ∧ needed < s2.total_samples))) := by
  intro t needed maxS
  refine ⟨?_, ?_, ?_⟩
  · intro s c
    exact ⟨stopReason_ne_none_iff, stopReason_eq_silence_iff, stopReason_eq_maxDur_iff⟩
  · intro cs
    induction cs with
    | nil => intro s; simp [runLoop_nil]
    | cons c cs ih =>
      intro s
      cases h : stopReason needed maxS (step t s c) with
      | some r =>
        rw [runLoop_cons_stop h]
        have hc : stopCond needed maxS (step t s c) :=
          stopReason_ne_none_iff.mp (by rw [h]; exact Option.some_ne_none r)
        simp only [statesAfter_cons, List.mem_cons]
        exact iff_of_true (Option.some_ne_none r)
          ⟨step t s c, Or.inl rfl, hc⟩
      | none =>
        rw [runLoop_cons_go h]
        have hnc : ¬ stopCond needed maxS (step t s c) := by
          intro hc
          exact absurd h (stopReason_ne_none_iff.mpr hc)
        rw [ih (step t s c)]
        simp only [statesAfter_cons, List.mem_cons]
        constructor
        · rintro ⟨x, hx, hcx⟩
          exact ⟨x, Or.inr hx, hcx⟩
        · rintro ⟨x, hx | hx, hcx⟩
          · exact absurd (hx ▸ hcx) hnc
          · exact ⟨x, hx, hcx⟩
  · intro cs
    induction cs with
    | nil =>
      intro s s2 r h
      rw [runLoop_nil] at h
      exact absurd (congrArg Prod.snd h) (by simp)
    | cons c cs ih =>
      intro s s2 r h
      cases h0 : stopReason needed maxS (step t s c) with
      | some r0 =>
        rw [runLoop_cons_stop h0] at h
        have hs2 : s2 = step t s c := (congrArg Prod.fst h).symm
        have hrr : r = r0 := (Option.some.inj (congrArg Prod.snd h)).symm
        subst hs2
        subst hrr
        refine ⟨stopReason_ne_none_iff.mp (by rw [h0]; exact Option.some_ne_none r), ?_⟩
        constructor
        · intro hrs
          exact stopReason_eq_silence_iff.mp (hrs ▸ h0)
        · intro hcond
          have h1 := (@stopReason_eq_silence_iff needed maxS (step t s c)).mpr hcond
          exact Option.some.inj (h0.symm.trans h1)
      | none =>
        rw [runLoop_cons_go h0] at h
        exact ih (step t s c) s2 r h

/-- C1 amended witness: a concrete session with `needed = 4`, `maxS = 100`
and two silent 4-sample blocks breaks at the second block with reason
`silence`. -/
theorem C1_amended_witness :
    runLoop (-40) 4 100 initState [zeroBlock4, zeroBlock4] =
      (⟨[zeroBlock4, zeroBlock4], 8, 8⟩, some .silence) ∧
    stopCond 4 100 ⟨[zeroBlock4, zeroBlock4], 8, 8⟩ ∧
    (StopReason.silence = .silence ↔ (4 ≤ 8 ∧ 4 < 8)) := by
  have h1 : step (-40) initState zeroBlock4 = ⟨[zeroBlock4], 4, 4⟩ := by
    rw [step_zeroBlock4]
    rfl
  have h2 : step (-40) (⟨[zeroBlock4], 4, 4⟩ : EngState) zeroBlock4 =
      ⟨[zeroBlock4, zeroBlock4], 8, 8⟩ := by
    rw [step_zeroBlock4]
    rfl
  have hgo : stopReason 4 100 (step (-40) initState zeroBlock4) = none := by
    rw [h1]
    rfl
  have hstop : stopReason 4 100
      (step (-40) (⟨[zeroBlock4], 4, 4⟩ : EngState) zeroBlock4) = some .silence := by
    rw [h2]
    rfl
  have heq : runLoop (-40) 4 100 initState [zeroBlock4, zeroBlock4] =
      (⟨[zeroBlock4, zeroBlock4], 8, 8⟩, some .silence) := by
    rw [runLoop_cons_go hgo, h1, runLoop_cons_stop hstop, h2]
  exact ⟨heq, ((C1_amended (-40) 4 100).2.2 [zeroBlock4, zeroBlock4]
    initState _ _ heq)⟩

/-! The silence counter as the trailing run of silent blocks (claim C6). -/

@[simp] lemma trailingSilent_nil (t : ℝ) : trailingSilent t [] = [] := rfl

lemma trailingSilent_append_silent {t : ℝ} {c : Chunk}
    (h : _rms_to_db (rms c) < t) (cs : List Chunk) :
    trailingSilent t (cs ++ [c]) = trailingSilent t cs ++ [c] := by
  rw [trailingSilent, trailingSilent, List.reverse_append]
  simp only [List.reverse_cons, List.reverse_nil, List.nil_append, List.singleton_append]
  rw [List.takeWhile_cons_of_pos (by simpa using h), List.reverse_cons]

lemma trailingSilent_append_loud {t : ℝ} {c : Chunk}
    (h : ¬ _rms_to_db (rms c) < t) (cs : List Chunk) :
    trailingSilent t (cs ++ [c]) = [] := by
  rw [trailingSilent, List.reverse_append]
  simp only [List.reverse_cons, List.reverse_nil, List.nil_append, List.singleton_append]
  rw [List.takeWhile_cons_of_neg (by simpa using h)]
  rfl

lemma silent_counter_eq (t : ℝ) (cs : List Chunk) :
    (List.foldl (step t) initState cs).silent_samples =
      ((trailingSilent t cs).map List.length).sum := by
  induction cs using List.reverseRecOn with
  | nil => rfl
  | append_singleton cs c ih =>
    rw [List.foldl_append, List.foldl_cons, List.foldl_nil]
    by_cases h : _rms_to_db (rms c) < t
    · rw [step_silent h, trailingSilent_append_silent h, List.map_append, List.sum_append]
      simp [ih]
    · rw [step_loud h, trailingSilent_append_loud h]
      rfl

/-- C6: `silent_samples` is reset to zero on every block whose level is at or
above the threshold, grows by the block length on every below-threshold
block, and after any processed block sequence equals the total sample count
of the maximal trailing run of below-threshold blocks. -/
theorem C6_silence_counter :
    (∀ (t : ℝ) (s : EngState) (c : Chunk),
      (_rms_to_db (rms c) < t →
        (step t s c).silent_samples = s.silent_samples + c.length) ∧
      (t ≤ _rms_to_db (rms c) → (step t s c).silent_samples = 0)) ∧
    (∀ (t : ℝ) (cs : List Chunk),
      (List.foldl (step t) initState cs).silent_samples =
        ((trailingSilent t cs).map List.length).sum) :=
  ⟨fun t s c =>
    ⟨fun h => by rw [step_silent h], fun h => by rw [step_loud (not_lt.mpr h)]⟩,
   silent_counter_eq⟩

/-- A loud block used by the witnesses: 4 samples at full scale. -/
def oneBlock4 : Chunk := List.replicate 4 (1 : ℚ)

lemma oneBlock4_loud : (-40 : ℝ) ≤ _rms_to_db (rms oneBlock4) := by
  rw [oneBlock4, rms_replicate_one (by norm_num), rms_to_db_one]
  norm_num

/-- C6 witness: the below-threshold branch at a silent block and the reset
branch at a full-scale block. -/
theorem C6_silence_counter_witness :
    (_rms_to_db (rms zeroBlock4) < -40 ∧
      (step (-40) initState zeroBlock4).silent_samples =
        initState.silent_samples + zeroBlock4.length) ∧
    ((-40 : ℝ) ≤ _rms_to_db (rms oneBlock4) ∧
      (step (-40) initState oneBlock4).silent_samples = 0) :=
  ⟨⟨zeroBlock4_silent,
      (C6_silence_counter.1 (-40) initState zeroBlock4).1 zeroBlock4_silent⟩,
    ⟨oneBlock4_loud,
      (C6_silence_counter.1 (-40) initState oneBlock4).2 oneBlock4_loud⟩⟩

/-! Stream failures and the empty-capture path (claims C7, C8, C10). -/

lemma runLoop_stop_nonempty (t : ℝ) (needed maxS : ℕ) (cs : List Chunk) :
    ∀ s : EngState,
      (runLoop t needed maxS s cs).2 = none ∨
        1 ≤ (runLoop t needed maxS s cs).1.chunks.length := by
  induction cs with
  | nil => intro s; exact Or.inl rfl
  | cons c cs ih =>
    intro s
    cases h : stopReason needed maxS (step t s c) with
    | some r =>
      rw [runLoop_cons_stop h]
      right
      rw [step_chunks, List.length_append, List.length_singleton]
      omega
    | none =>
      rw [runLoop_cons_go h]
      exact ih (step t s c)

/-- C8: with the default parameters and zero delivered blocks the call never
returns (result `none`: the loop blocks forever on the queue), although the
claim and the dead branch at recorder.py line 106 say an empty buffer yields
an empty successful result; indeed every state at which the loop can break
holds at least one chunk, so the empty-buffer branch is unreachable. -/
theorem C8_no_blocks :
    record_until_silence (.ok ⟨"mic", 1⟩) (-40) 24000 480000 [] none = none ∧
    (∀ (t : ℝ) (needed maxS : ℕ) (cs : List Chunk),
      (runLoop t needed maxS initState cs).2 = none ∨
        1 ≤ (runLoop t needed maxS initState cs).1.chunks.length) :=
  ⟨rfl, fun t needed maxS cs => runLoop_stop_nonempty t needed maxS cs initState⟩

/-- C7: a driver-level stream failure during either capture operation
surfaces as the single `RecorderError` kind and returns no buffer — the
partial chunks accumulated in the loop state are discarded. -/
theorem C7_stream_failure :
    (∀ (query : Except PyError DeviceInfo) (t : ℝ) (needed maxS : ℕ)
        (cs : List Chunk) (s : EngState) (m : String),
      _ensure_mic_available query = .ok () →
      runLoop t needed maxS initState cs = (s, none) →
      record_until_silence query t needed maxS cs (some m) =
        some (.error (.recorder ("Audio recording failed: " ++ m)))) ∧
    (∀ (query : Except PyError DeviceInfo) (recording : List ℚ) (m : String),
      _ensure_mic_available query = .ok () →
      record_for_duration query recording (some m) =
        .error (.recorder ("Audio recording failed: " ++ m))) := by
  constructor
  · intro query t needed maxS cs s m hq hloop
    unfold record_until_silence
    rw [hq, hloop]
  · intro query recording m hq
    unfold record_for_duration
    rw [hq]

/-- C7 witness: a concrete failing session that had already captured one
(partial) block, and a concrete failing fixed-duration capture. -/
theorem C7_stream_failure_witness :
    _ensure_mic_available (.ok ⟨"mic", 1⟩) = .ok () ∧
    runLoop (-40) 100 1000 initState [zeroBlock4] = (⟨[zeroBlock4], 4, 4⟩, none) ∧
    record_until_silence (.ok ⟨"mic", 1⟩) (-40) 100 1000 [zeroBlock4] (some "boom") =
      some (.error (.recorder ("Audio recording failed: " ++ "boom"))) ∧
    record_for_duration (.ok ⟨"mic", 1⟩) zeroBlock4 (some "boom") =
      .error (.recorder ("Audio recording failed: " ++ "boom")) := by
  have hens : _ensure_mic_available (.ok ⟨"mic", 1⟩) = .ok () := rfl
  have h1 : step (-40) initState zeroBlock4 = ⟨[zeroBlock4], 4, 4⟩ := by
    rw [step_zeroBlock4]
    rfl
  have hgo : stopReason 100 1000 (step (-40) initState zeroBlock4) = none := by
    rw [h1]
    rfl
  have hloop : runLoop (-40) 100 1000 initState [zeroBlock4] =
      (⟨[zeroBlock4], 4, 4⟩, none) := by
    rw [runLoop_cons_go hgo, h1, runLoop_nil]
  exact ⟨hens, hloop,
    C7_stream_failure.1 _ (-40) 100 1000 _ _ "boom" hens hloop,
    C7_stream_failure.2 _ zeroBlock4 "boom" hens⟩

/-- C10: every error produced by the device precheck or either capture
operation is the single `RecorderError` kind — a zero-channel device, an
unreachable audio subsystem and a mid-stream driver failure all surface as
`PyError.recorder` and are not distinguishable by error type. -/
theorem C10_error_type :
    (∀ query : Except PyError DeviceInfo,
      _ensure_mic_available query = .ok () ∨
        ∃ m, _ensure_mic_available query = .error (.recorder m)) ∧
    (∀ (query : Except PyError DeviceInfo) (t : ℝ) (needed maxS : ℕ)
        (cs : List Chunk) (streamErr : Option String),
      record_until_silence query t needed maxS cs streamErr = none ∨
        (∃ xs, record_until_silence query t needed maxS cs streamErr =
          some (.ok xs)) ∨
        (∃ m, record_until_silence query t needed maxS cs streamErr =
          some (.error (.recorder m)))) ∧
    (∀ (query : Except PyError DeviceInfo) (recording : List ℚ)
        (recErr : Option String),
      (∃ xs, record_for_duration query recording recErr = .ok xs) ∨
        (∃ m, record_for_duration query recording recErr =
          .error (.recorder m))) := by
  have hok : ∀ info : DeviceInfo,
      _ensure_mic_available (.ok info) =
        if info.max_input_channels < 1 then
          .error (.recorder ("Device " ++ info.name ++ " has no input channels"))
        else .ok () := fun _ => rfl
  have H1 : ∀ query : Except PyError DeviceInfo,
      _ensure_mic_available query = .ok () ∨
        ∃ m, _ensure_mic_available query = .error (.recorder m) := by
    intro query
    cases query with
    | ok info =>
      by_cases h : info.max_input_channels < 1
      · exact Or.inr ⟨_, by rw [hok, if_pos h]⟩
      · exact Or.inl (by rw [hok, if_neg h])
    | error e =>
      cases e with
      | portAudio m => exact Or.inr ⟨_, rfl⟩
      | recorder m => exact Or.inr ⟨_, rfl⟩
      | generic m => exact Or.inr ⟨_, rfl⟩
  refine ⟨H1, ?_, ?_⟩
  · intro query t needed maxS cs streamErr
    rcases H1 query with hq | ⟨m, hq⟩
    · rcases hr : runLoop t needed maxS initState cs with ⟨s, r⟩
      cases r with
      | some r0 =>
        exact Or.inr (Or.inl ⟨_, by unfold record_until_silence; rw [hq, hr]⟩)
      | none =>
        cases streamErr with
        | some m =>
          exact Or.inr (Or.inr ⟨_, by unfold record_until_silence; rw [hq, hr]⟩)
        | none =>
          exact Or.inl (by unfold record_until_silence; rw [hq, hr])
    · exact Or.inr (Or.inr ⟨m, by unfold record_until_silence; rw [hq]⟩)
  · intro query recording recErr
    rcases H1 query with hq | ⟨m, hq⟩
    · cases recErr with
      | some m => exact Or.inr ⟨_, by unfold record_for_duration; rw [hq]⟩
      | none => exact Or.inl ⟨_, by unfold record_for_duration; rw [hq]⟩
    · exact Or.inr ⟨m, by unfold record_for_duration; rw [hq]⟩

end Vox
